import Mathlib

/-!
Verification of the ScreenMachine frame-extraction and grid-composition
pipeline.  The definitions below are shallow embeddings of the Python
source (`video_processor.py`, `image_composer.py`, `config.py`,
`utils.py`); Python floats are modelled as rationals, Python ints as
unbounded integers or naturals, and fallible functions return `Except`
or `Option`.
-/

/-! ## Timestamp generation (video_processor.py, extract_screenshots_pyav /
extract_screenshots_ffmpeg lines 331-339 and 516-524)

```
if duration == 0 or num_screenshots == 0: return []
if num_screenshots == 1:
    timestamps = [duration / 2]
else:
    interval = duration / (num_screenshots + 1)
    timestamps = [interval * (i + 1) for i in range(num_screenshots)]
```
-/

def generateTimestamps (duration : ℚ) (numScreenshots : ℕ) : List ℚ :=
  if duration = 0 ∨ numScreenshots = 0 then []
  else if numScreenshots = 1 then [duration / 2]
  else (List.range numScreenshots).map
    (fun (i : ℕ) => duration / ((numScreenshots : ℚ) + 1) * ((i : ℚ) + 1))

/-- The property claimed of the generated timestamps for `count ≥ 2`:
exactly `count` of them, the `i`-th equals `D/(count+1)*(i+1)`, they are
strictly increasing, and all lie strictly inside `(0, D)`. -/
def TimestampSpec (D : ℚ) (count : ℕ) : Prop :=
  (generateTimestamps D count).length = count ∧
  (∀ i (h : i < (generateTimestamps D count).length),
      (generateTimestamps D count).get ⟨i, h⟩ = D / ((count : ℚ) + 1) * ((i : ℚ) + 1)) ∧
  (generateTimestamps D count).Pairwise (· < ·) ∧
  (∀ t ∈ generateTimestamps D count, 0 < t ∧ t < D)

/-! ## Configuration validation (config.py, ProcessingConfig.__post_init__
lines 28-35) -/

structure ProcessingConfig where
  rows : ℤ
  columns : ℤ
  max_screenshot_width : ℤ
  max_screenshot_height : ℤ
  jpg_quality : ℤ
  overwrite_existing : Bool := false
  show_title : Bool := true
  show_resolution : Bool := true
  show_file_size : Bool := true
  show_duration : Bool := true
  show_codec : Bool := false
  show_timestamps : Bool := false
  deriving Repr, DecidableEq

/-- Construction of a `ProcessingConfig`, with the `__post_init__`
validation: raising `ValueError` is modelled as returning `Except.error`. -/
def mkProcessingConfig (rows columns maxW maxH quality : ℤ) :
    Except String ProcessingConfig :=
  if rows < 1 ∨ columns < 1 then
    .error "Rows and columns must be at least 1"
  else if ¬ (1 ≤ quality ∧ quality ≤ 100) then
    .error "JPG quality must be between 1 and 100"
  else if maxW < 1 ∨ maxH < 1 then
    .error "Screenshot dimensions must be at least 1 pixel"
  else
    .ok { rows := rows, columns := columns, max_screenshot_width := maxW,
          max_screenshot_height := maxH, jpg_quality := quality }

/-! ## Frame sampling round trip (video_processor.py,
extract_screenshots_pyav lines 364-486 / extract_screenshots_ffmpeg
lines 552-671)

The per-timestamp decode work is abstracted as a function
`decode : ℚ → Option Frame` (a frame, or `none` when the seek/decode for
that timestamp failed and the loop `continue`s).  The loop decodes the
timestamps in sorted order, then rebuilds the output in the original
order through the `timestamp_to_screenshot` dict. -/

def sortTimestamps (ts : List ℚ) : List ℚ :=
  ts.mergeSort (fun a b => decide (a ≤ b))

/-- The decode loop: `for timestamp in timestamps_sorted: ...
screenshots.append((pil_image, timestamp))`, skipping failures. -/
def decodeLoop {Frame : Type} (decode : ℚ → Option Frame) (ts : List ℚ) :
    List (Frame × ℚ) :=
  ts.filterMap (fun t => (decode t).map (fun img => (img, t)))

/-- The dict comprehension
`{screenshot[1]: screenshot[0] for screenshot in screenshots}` followed by
`.get(original_timestamp)`: the last pair with the given timestamp wins. -/
def dictGet {Frame : Type} (pairs : List (Frame × ℚ)) (t : ℚ) : Option Frame :=
  (pairs.reverse.find? (fun p => decide (p.2 = t))).map Prod.fst

/-- The whole sampling pipeline after timestamps are fixed: decode in
sorted order, then re-assemble `final_screenshots` in the original
timestamp order. -/
def extractLoopResult {Frame : Type} (decode : ℚ → Option Frame)
    (timestamps : List ℚ) : List (Frame × ℚ) :=
  let screenshots := decodeLoop decode (sortTimestamps timestamps)
  timestamps.filterMap (fun t => (dictGet screenshots t).map (fun img => (img, t)))

/-- The round-trip property claimed of the sampler: output length equals
input length, output order is exactly the input timestamp order, and each
output frame is the one decoded for its paired timestamp. -/
def RoundTripSpec {Frame : Type} (decode : ℚ → Option Frame)
    (timestamps : List ℚ) : Prop :=
  (extractLoopResult decode timestamps).length = timestamps.length ∧
  (extractLoopResult decode timestamps).map Prod.snd = timestamps ∧
  ∀ p ∈ extractLoopResult decode timestamps, decode p.2 = some p.1

/-- A concrete decode function used to instantiate the round-trip theorem. -/
def decodeConst : ℚ → Option ℕ := fun _ => some 1

/-! ## Strategy fallback (video_processor.py, extract_screenshots
lines 721-751)

`pyavResult` stands for the call to `extract_screenshots_pyav` (`.error`
when it raised), `ffmpegResult` for `extract_screenshots_ffmpeg` (which
returns a possibly-empty list rather than raising). -/

def extract_screenshots {Frame : Type} (pyavAvailable : Bool)
    (pyavResult : Except String (List (Frame × ℚ)))
    (ffmpegResult : List (Frame × ℚ)) : Except String (List (Frame × ℚ)) :=
  let fallback : Except String (List (Frame × ℚ)) :=
    if ffmpegResult.isEmpty then
      .error "Could not extract screenshots from video file"
    else .ok ffmpegResult
  if pyavAvailable then
    match pyavResult with
    | .ok r => if r.isEmpty then fallback else .ok r
    | .error _ => fallback
  else fallback

/-! ## Grid composition (image_composer.py, create_grid lines 152-344)

Frames carry what the composition geometry inspects: pixel dimensions and
whether the frame is a black placeholder.  Header label lines are modelled
structurally (`LabelLine`) instead of as the exact rendered strings; which
lines get appended, and how many, is what the header-height computation
consumes (`line_height = font_size + 10 = 28`, `padding = 10`). -/

structure Frame where
  width : ℕ
  height : ℕ
  black : Bool
  deriving Repr, DecidableEq

/-- The metadata dict consumed by `create_grid`; `none` models a missing
key (`metadata.get(...)` then falls back to its default). -/
structure VideoMetadata where
  filename : Option String := none
  resolution : Option (ℕ × ℕ) := none
  width : Option ℕ := none
  height : Option ℕ := none
  file_size : Option ℕ := none
  duration : Option ℚ := none
  codec : Option String := none
  deriving Repr, DecidableEq

inductive LabelLine where
  | title (s : String)
  | resolution (w h : ℕ)
  | fileSize (n : ℕ)
  | durationLine (q : ℚ)
  | codec (s : String)
  deriving Repr, DecidableEq

/-- The disjunction of the five label toggles guarding the header block
(image_composer.py line 239-240). -/
def anyLabelToggle (c : ProcessingConfig) : Bool :=
  c.show_title || c.show_resolution || c.show_file_size ||
    c.show_duration || c.show_codec

/-- The `label_lines` list built at image_composer.py lines 246-268: each
enabled toggle appends its line, except that a missing resolution (with no
`width`/`height` fallback keys), a non-positive file size and a
non-positive duration are silently skipped. -/
def labelLines (config : ProcessingConfig) (md : VideoMetadata) :
    List LabelLine :=
  (if config.show_title then [LabelLine.title (md.filename.getD "Unknown")]
   else []) ++
  (if config.show_resolution then
    match md.resolution with
    | some (w, h) => [LabelLine.resolution w h]
    | none =>
      match md.width, md.height with
      | some w, some h => [LabelLine.resolution w h]
      | _, _ => []
   else []) ++
  (if config.show_file_size then
    if 0 < md.file_size.getD 0 then [LabelLine.fileSize (md.file_size.getD 0)]
    else []
   else []) ++
  (if config.show_duration then
    if 0 < md.duration.getD 0 then [LabelLine.durationLine (md.duration.getD 0)]
    else []
   else []) ++
  (if config.show_codec then [LabelLine.codec (md.codec.getD "Unknown")]
   else [])

/-- `header_height` (image_composer.py lines 236-270): zero unless
metadata is present and some label toggle is enabled, else
`len(label_lines) * line_height + 2 * padding` with `line_height = 28`
and `padding = 10`. -/
def headerHeight (metadata : Option VideoMetadata) (config : ProcessingConfig) : ℤ :=
  match metadata with
  | none => 0
  | some md =>
    if anyLabelToggle config then ((labelLines config md).length : ℤ) * 28 + 20
    else 0

/-- `scale_factor = min(width_ratio, height_ratio, 1.0)`
(image_composer.py lines 211-213). -/
def scaleFactor (gridW gridH maxTotalW maxTotalH : ℚ) : ℚ :=
  min (min (maxTotalW / gridW) (maxTotalH / gridH)) 1

/-- The observable outcome of `create_grid`: the caller's (mutated) list
object, the cell list actually pasted, the final cell and canvas
geometry, and the scale decision of the `resize_after_compose` mode
(`scale_factor := 1, resized := false` in the other mode, which computes
no scale factor). -/
structure ComposeResult where
  callerImages : List (Frame × ℚ)
  cells : List (Frame × ℚ)
  cellWidth : ℤ
  cellHeight : ℤ
  headerH : ℤ
  finalWidth : ℤ
  finalHeight : ℤ
  scale_factor : ℚ
  resized : Bool
  deriving Repr, DecidableEq

/-- `create_grid` (image_composer.py lines 152-344).  The padding `while`
loop appends black frames of the first image's dimensions, with timestamp
`0.0`, to the caller's list in place until it has `rows * cols` entries;
`images[:total_needed]` then makes a fresh truncated list.  In
`resize_after_compose` mode the full-resolution canvas is scaled once by
`scale_factor` when it is `< 1.0` (`int()` on the non-negative products is
`floor`), the cell size is recomputed by floor division (`//`, `Int.ediv`)
and the final canvas is rebuilt from those integral cell sizes plus the
header band. -/
def create_grid (images : List (Frame × ℚ)) (config : ProcessingConfig)
    (metadata : Option VideoMetadata) (resize_after_compose : Bool) :
    Except String ComposeResult :=
  match images with
  | [] => .error "No images provided for grid creation"
  | first :: _ =>
    let rows := config.rows
    let cols := config.columns
    let totalNeeded := rows * cols
    let blank : Frame × ℚ := (⟨first.1.width, first.1.height, true⟩, 0)
    let callerImages :=
      images ++ List.replicate (totalNeeded - (images.length : ℤ)).toNat blank
    let cells := callerImages.take totalNeeded.toNat
    let sw0 : ℤ := (first.1.width : ℤ)
    let sh0 : ℤ := (first.1.height : ℤ)
    let hh := headerHeight metadata config
    if resize_after_compose then
      let gw := cols * sw0
      let gh := rows * sh0
      let maxTotalW := cols * config.max_screenshot_width
      let maxTotalH := rows * config.max_screenshot_height
      let factor := scaleFactor (gw : ℚ) (gh : ℚ) (maxTotalW : ℚ) (maxTotalH : ℚ)
      let ngw : ℤ := if factor < 1 then ((gw : ℚ) * factor).floor else gw
      let ngh : ℤ := if factor < 1 then ((gh : ℚ) * factor).floor else gh
      let cw := ngw.ediv cols
      let ch := ngh.ediv rows
      .ok { callerImages := callerImages, cells := cells, cellWidth := cw,
            cellHeight := ch, headerH := hh, finalWidth := cols * cw,
            finalHeight := rows * ch + hh, scale_factor := factor,
            resized := decide (factor < 1) }
    else
      .ok { callerImages := callerImages, cells := cells, cellWidth := sw0,
            cellHeight := sh0, headerH := hh, finalWidth := cols * sw0,
            finalHeight := rows * sh0 + hh, scale_factor := 1,
            resized := false }

/-- A default-toggle configuration used to instantiate theorems. -/
def cfgDefault : ProcessingConfig :=
  { rows := 4, columns := 4, max_screenshot_width := 320,
    max_screenshot_height := 240, jpg_quality := 75 }

/-- A configuration whose only enabled label toggle is `show_file_size`. -/
def cfgFileSizeOnly : ProcessingConfig :=
  { rows := 4, columns := 4, max_screenshot_width := 320,
    max_screenshot_height := 240, jpg_quality := 75, show_title := false,
    show_resolution := false, show_file_size := true, show_duration := false,
    show_codec := false }

/-- A configuration whose only enabled label toggle is `show_title`. -/
def cfgTitleOnly : ProcessingConfig :=
  { rows := 4, columns := 4, max_screenshot_width := 320,
    max_screenshot_height := 240, jpg_quality := 75, show_title := true,
    show_resolution := false, show_file_size := false, show_duration := false,
    show_codec := false }

/-- A metadata dict whose `file_size` key is `0` and whose other keys are
missing. -/
def mdZeroSize : VideoMetadata := { file_size := some 0 }

/-- The padding/truncation property claimed of `create_grid` on a
non-empty input: success, exactly `rows * columns` cells, padding with
black frames of the first sample's dimensions when shorter, truncation
when longer. -/
def PadSpec (first : Frame × ℚ) (rest : List (Frame × ℚ))
    (cfg : ProcessingConfig) (md : Option VideoMetadata) (mode : Bool) : Prop :=
  ∃ r, create_grid (first :: rest) cfg md mode = .ok r ∧
    r.cells.length = (cfg.rows * cfg.columns).toNat ∧
    (((first :: rest).length : ℤ) < cfg.rows * cfg.columns →
      r.cells = (first :: rest) ++
        List.replicate
          (cfg.rows * cfg.columns - ((first :: rest).length : ℤ)).toNat
          (⟨first.1.width, first.1.height, true⟩, 0)) ∧
    (cfg.rows * cfg.columns ≤ ((first :: rest).length : ℤ) →
      r.cells = (first :: rest).take (cfg.rows * cfg.columns).toNat)

/-- The scale-to-fit property claimed of the compose-then-resize-once
mode: scale factor exactly `1` with no resize when the native grid
already fits, else the single factor `min(width_ratio, height_ratio) < 1`. -/
def ScaleSpec (first : Frame × ℚ) (rest : List (Frame × ℚ))
    (cfg : ProcessingConfig) (md : Option VideoMetadata) : Prop :=
  ∀ r, create_grid (first :: rest) cfg md true = .ok r →
    (cfg.columns * (first.1.width : ℤ) ≤ cfg.columns * cfg.max_screenshot_width ∧
        cfg.rows * (first.1.height : ℤ) ≤ cfg.rows * cfg.max_screenshot_height →
      r.scale_factor = 1 ∧ r.resized = false) ∧
    (¬ (cfg.columns * (first.1.width : ℤ) ≤ cfg.columns * cfg.max_screenshot_width ∧
        cfg.rows * (first.1.height : ℤ) ≤ cfg.rows * cfg.max_screenshot_height) →
      r.scale_factor =
        min (((cfg.columns * cfg.max_screenshot_width : ℤ) : ℚ) /
              ((cfg.columns * (first.1.width : ℤ) : ℤ) : ℚ))
            (((cfg.rows * cfg.max_screenshot_height : ℤ) : ℚ) /
              ((cfg.rows * (first.1.height : ℤ) : ℤ) : ℚ)) ∧
      r.scale_factor < 1 ∧ r.resized = true)

/-- The header-band property that does hold of `create_grid`: the
file-size, duration and resolution lines are omitted without error when
their metadata field is absent (or non-positive for file size and
duration), enabled title and codec lines always render — substituting
`"Unknown"` for an absent field — and the header height is
`len(label_lines) * 28 + 2 * 10` whenever metadata is present and a
toggle is enabled — also when zero lines render — and `0` otherwise. -/
def HeaderSpec (cfg : ProcessingConfig) (md : VideoMetadata) : Prop :=
  (md.file_size.getD 0 = 0 → ∀ n, LabelLine.fileSize n ∉ labelLines cfg md) ∧
  (md.duration.getD 0 ≤ 0 → ∀ q, LabelLine.durationLine q ∉ labelLines cfg md) ∧
  (md.resolution = none → md.width = none →
    ∀ w h, LabelLine.resolution w h ∉ labelLines cfg md) ∧
  (cfg.show_title = true →
    LabelLine.title (md.filename.getD "Unknown") ∈ labelLines cfg md) ∧
  (cfg.show_codec = true →
    LabelLine.codec (md.codec.getD "Unknown") ∈ labelLines cfg md) ∧
  (anyLabelToggle cfg = true →
    headerHeight (some md) cfg = ((labelLines cfg md).length : ℤ) * 28 + 20) ∧
  (anyLabelToggle cfg = false → headerHeight (some md) cfg = 0) ∧
  headerHeight none cfg = 0

/-- The canvas-dimension invariant claimed of `create_grid`: the final
image is `(columns * cellWidth, rows * cellHeight + headerHeight)` for the
integral cell dimensions the code recomputes after any scale-down. -/
def CanvasSpec (images : List (Frame × ℚ)) (cfg : ProcessingConfig)
    (md : Option VideoMetadata) (mode : Bool) : Prop :=
  ∀ r, create_grid images cfg md mode = .ok r →
    r.finalWidth = cfg.columns * r.cellWidth ∧
    r.finalHeight = cfg.rows * r.cellHeight + r.headerH

/-- The caller-list mutation effect claimed of `create_grid`: the black
padding frames, with timestamp `0.0`, are appended to the caller's list
object, so a too-short input list does not come back unchanged. -/
def MutationSpec (first : Frame × ℚ) (rest : List (Frame × ℚ))
    (cfg : ProcessingConfig) (md : Option VideoMetadata) (mode : Bool) : Prop :=
  ∀ r, create_grid (first :: rest) cfg md mode = .ok r →
    r.callerImages = (first :: rest) ++
      List.replicate
        (cfg.rows * cfg.columns - ((first :: rest).length : ℤ)).toNat
        (⟨first.1.width, first.1.height, true⟩, 0) ∧
    (((first :: rest).length : ℤ) < cfg.rows * cfg.columns →
      r.callerImages ≠ first :: rest)

/-! ## Output path computation (utils.py, calculate_output_path lines 8-50)

Paths are modelled as lists of components: `os.path.basename` is the last
component, `os.path.dirname` drops it, `os.path.join` appends.
`os.path.relpath(video_dir, input_dir)` is modelled on the cases the code
distinguishes: the components of `video_dir` below `input_dir` when
`input_dir` leads to it (`[]` playing the role of `'.'`), and `none` for
a relative path that cannot be computed (the `ValueError` branch for
paths on different drives). -/

def relpath (dir base : List String) : Option (List String) :=
  if dir.take base.length = base then some (dir.drop base.length) else none

/-- `str.upper()`, modelled character-wise. -/
def strUpper (s : String) : String := ⟨s.data.map Char.toUpper⟩

def calculate_output_path (video_path : List String)
    (input_dir output_dir : List String) (output_format : String)
    (follow_structure : Bool) (suffix : String) : List String :=
  let video_name := video_path.getLastD ""
  let output_ext := if strUpper output_format = "PNG" then ".png" else ".jpg"
  let output_filename := video_name ++ suffix ++ output_ext
  if follow_structure then
    match relpath video_path.dropLast input_dir with
    | some [] => output_dir ++ [output_filename]
    | some rel => output_dir ++ rel ++ [output_filename]
    | none => output_dir ++ [output_filename]
  else
    output_dir ++ [output_filename]

/-- The output-path properties that do hold of `calculate_output_path`:
the filename is the video's full basename (original extension kept) plus
suffix plus the format extension, placed under the preserved relative
subdirectory when `follow_structure` is set, and directly in the output
root otherwise or when the relative path cannot be computed. -/
def OutputPathSpec (input output sub : List String) (name : String)
    (fmt suffix : String) : Prop :=
  calculate_output_path (input ++ sub ++ [name]) input output fmt true suffix =
    output ++ sub ++
      [name ++ suffix ++ (if strUpper fmt = "PNG" then ".png" else ".jpg")] ∧
  calculate_output_path (input ++ sub ++ [name]) input output fmt false suffix =
    output ++
      [name ++ suffix ++ (if strUpper fmt = "PNG" then ".png" else ".jpg")] ∧
  ∀ video : List String,
    relpath video.dropLast input = none →
      calculate_output_path video input output fmt true suffix =
        output ++ [video.getLastD "" ++ suffix ++
          (if strUpper fmt = "PNG" then ".png" else ".jpg")]

/-- A 1×1 grid with a 4×4 per-cell box, used to instantiate the
scale-down theorem. -/
def cfgShrink : ProcessingConfig :=
  { rows := 1, columns := 1, max_screenshot_width := 4,
    max_screenshot_height := 4, jpg_quality := 75 }

/-! ## Theorems -/

/-- C1. Timestamp generation: for every duration `D > 0` and `count ≥ 2`
the sampler generates exactly `count` timestamps equal to
`D/(count+1)*(i+1)`, strictly increasing and strictly inside `(0, D)`;
for `count = 1` the single timestamp is `D/2`. -/
theorem timestamps_evenly_spaced (D : ℚ) (count : ℕ) (hD : 0 < D) :
    generateTimestamps D 1 = [D / 2] ∧ (2 ≤ count → TimestampSpec D count) := by
  have hD0 : D ≠ 0 := ne_of_gt hD
  constructor
  · simp [generateTimestamps, hD0]
  · intro hcount
    have hc0 : count ≠ 0 := by omega
    have hc1 : count ≠ 1 := by omega
    have hgen : generateTimestamps D count =
        (List.range count).map
          (fun (i : ℕ) => D / ((count : ℚ) + 1) * ((i : ℚ) + 1)) := by
      unfold generateTimestamps
      rw [if_neg (by push_neg; exact ⟨hD0, hc0⟩), if_neg hc1]
    have hden : (0 : ℚ) < (count : ℚ) + 1 := by positivity
    have hpos : (0 : ℚ) < D / ((count : ℚ) + 1) := div_pos hD hden
    refine ⟨by simp [hgen], ?_, ?_, ?_⟩
    · intro i h
      simp only [hgen, List.get_eq_getElem, List.getElem_map, List.getElem_range]
    · rw [hgen, List.pairwise_map]
      refine List.Pairwise.imp_of_mem ?_ (List.pairwise_lt_range count)
      intro a b _ _ hab
      have : (a : ℚ) + 1 < (b : ℚ) + 1 := by
        have : (a : ℚ) < (b : ℚ) := by exact_mod_cast hab
        linarith
      exact mul_lt_mul_of_pos_left this hpos
    · intro t ht
      rw [hgen, List.mem_map] at ht
      obtain ⟨i, hi, rfl⟩ := ht
      rw [List.mem_range] at hi
      constructor
      · have : (0 : ℚ) < (i : ℚ) + 1 := by positivity
        exact mul_pos hpos this
      · have hlt : (i : ℚ) + 1 < (count : ℚ) + 1 := by
          have : (i : ℚ) < (count : ℚ) := by exact_mod_cast hi
          linarith
        calc D / ((count : ℚ) + 1) * ((i : ℚ) + 1)
            < D / ((count : ℚ) + 1) * ((count : ℚ) + 1) :=
              mul_lt_mul_of_pos_left hlt hpos
          _ = D := div_mul_cancel₀ D (ne_of_gt hden)

/-- Witness for C1 at `D = 10`, `count = 4`. -/
theorem timestamps_evenly_spaced_witness :
    (0 : ℚ) < 10 ∧
      (generateTimestamps 10 1 = [10 / 2] ∧ (2 ≤ 4 → TimestampSpec 10 4)) :=
  ⟨by norm_num, timestamps_evenly_spaced 10 4 (by norm_num)⟩

/-- C8. Config validation is fail-fast: constructing a `ProcessingConfig`
succeeds iff `rows ≥ 1`, `columns ≥ 1`, both max dimensions `≥ 1` and
`jpg_quality ∈ [1, 100]`; otherwise construction itself returns the error. -/
theorem mkProcessingConfig_ok_iff (r c w h q : ℤ) :
    (mkProcessingConfig r c w h q).isOk = true ↔
      (1 ≤ r ∧ 1 ≤ c ∧ 1 ≤ w ∧ 1 ≤ h ∧ 1 ≤ q ∧ q ≤ 100) := by
  unfold mkProcessingConfig
  split
  · simp [Except.isOk, Except.toBool]; omega
  · split
    · simp [Except.isOk, Except.toBool]; omega
    · split
      · simp [Except.isOk, Except.toBool]; omega
      · simp [Except.isOk, Except.toBool]; omega

/-- Membership in the decode loop output characterises decoded pairs. -/
theorem mem_decodeLoop {Frame : Type} (decode : ℚ → Option Frame)
    (ts : List ℚ) (p : Frame × ℚ) :
    p ∈ decodeLoop decode ts ↔ p.2 ∈ ts ∧ decode p.2 = some p.1 := by
  obtain ⟨img, t⟩ := p
  simp only [decodeLoop, List.mem_filterMap, Option.map_eq_some']
  constructor
  · rintro ⟨a, ha, f, hf, heq⟩
    simp only [Prod.mk.injEq] at heq
    obtain ⟨rfl, rfl⟩ := heq
    exact ⟨ha, hf⟩
  · rintro ⟨ht, hd⟩
    exact ⟨t, ht, img, hd, rfl⟩

/-- If a timestamp was decoded, the dict lookup returns its frame. -/
theorem dictGet_decodeLoop {Frame : Type} (decode : ℚ → Option Frame)
    (ts : List ℚ) (t : ℚ) (img : Frame) (hmem : t ∈ ts)
    (hdec : decode t = some img) :
    dictGet (decodeLoop decode ts) t = some img := by
  unfold dictGet
  cases hfind : (decodeLoop decode ts).reverse.find? (fun p => decide (p.2 = t)) with
  | none =>
    exfalso
    have hall := List.find?_eq_none.mp hfind (img, t) ?_
    · simp at hall
    · rw [List.mem_reverse, mem_decodeLoop]
      exact ⟨hmem, hdec⟩
  | some q =>
    have hq2 : q.2 = t := by
      have := List.find?_some hfind
      simpa using this
    have hqmem : q ∈ decodeLoop decode ts :=
      List.mem_reverse.mp (List.mem_of_find?_eq_some hfind)
    have hqdec := (mem_decodeLoop decode ts q).mp hqmem
    have : decode t = some q.1 := by rw [← hq2]; exact hqdec.2
    rw [hdec] at this
    simpa using (Option.some.inj this).symm

/-- Dict hits only ever return frames that `decode` produced for that
timestamp. -/
theorem dictGet_decodeLoop_sound {Frame : Type} (decode : ℚ → Option Frame)
    (ts : List ℚ) (t : ℚ) (img : Frame)
    (h : dictGet (decodeLoop decode ts) t = some img) :
    decode t = some img := by
  unfold dictGet at h
  cases hfind : (decodeLoop decode ts).reverse.find? (fun p => decide (p.2 = t)) with
  | none =>
    rw [hfind] at h
    exact absurd h (by simp)
  | some q =>
    rw [hfind] at h
    have hq1 : q.1 = img := by simpa using h
    have hq2 : q.2 = t := by
      have := List.find?_some hfind
      simpa using this
    have hqmem : q ∈ decodeLoop decode ts :=
      List.mem_reverse.mp (List.mem_of_find?_eq_some hfind)
    have hqdec := (mem_decodeLoop decode ts q).mp hqmem
    rw [← hq2, ← hq1]
    exact hqdec.2

/-- Rebuilding a list through an everywhere-successful lookup preserves
length and order. -/
theorem filterMap_lookup_all_some {Frame : Type} (g : ℚ → Option Frame) :
    ∀ (l : List ℚ), (∀ t ∈ l, (g t).isSome = true) →
      (l.filterMap (fun t => (g t).map (fun img => (img, t)))).length = l.length ∧
      (l.filterMap (fun t => (g t).map (fun img => (img, t)))).map Prod.snd = l ∧
      ∀ p ∈ l.filterMap (fun t => (g t).map (fun img => (img, t))),
        g p.2 = some p.1 := by
  intro l
  induction l with
  | nil => intro _; simp
  | cons t l ih =>
    intro h
    obtain ⟨img, himg⟩ := Option.isSome_iff_exists.mp (h t (List.mem_cons_self ..))
    have hrest := ih (fun u hu => h u (List.mem_cons_of_mem _ hu))
    simp only [List.filterMap_cons, himg, Option.map_some]
    refine ⟨by simp [hrest.1], by simp [hrest.2.1], ?_⟩
    intro p hp
    rcases List.mem_cons.mp hp with hp | hp
    · subst hp; exact himg
    · exact hrest.2.2 p hp

/-- C2. Round-trip of sampling: when every timestamp decodes successfully,
the sampler's output has the same length as the input timestamp list, its
entries appear in exactly the input timestamp order regardless of the
sorted internal decode order, and each output frame is joined to its
originally requested timestamp by timestamp value. -/
theorem sample_round_trip {Frame : Type} (decode : ℚ → Option Frame)
    (timestamps : List ℚ)
    (h : ∀ t ∈ timestamps, (decode t).isSome = true) :
    RoundTripSpec decode timestamps := by
  have hdict : ∀ t ∈ timestamps,
      (dictGet (decodeLoop decode (sortTimestamps timestamps)) t).isSome = true := by
    intro t ht
    obtain ⟨img, himg⟩ := Option.isSome_iff_exists.mp (h t ht)
    have hmem : t ∈ sortTimestamps timestamps := by
      unfold sortTimestamps
      exact ((List.mergeSort_perm timestamps _).mem_iff).mpr ht
    rw [dictGet_decodeLoop decode _ t img hmem himg]
    rfl
  have hmain := filterMap_lookup_all_some
      (dictGet (decodeLoop decode (sortTimestamps timestamps))) timestamps hdict
  exact ⟨hmain.1, hmain.2.1,
    fun p hp => dictGet_decodeLoop_sound decode _ p.2 p.1 (hmain.2.2 p hp)⟩

/-- Witness for C2: three timestamps given out of sorted order, with a
decoder that succeeds everywhere. -/
theorem sample_round_trip_witness :
    (∀ t ∈ ([3, 1, 2] : List ℚ), (decodeConst t).isSome = true) ∧
      RoundTripSpec decodeConst [3, 1, 2] :=
  ⟨fun _ _ => rfl, sample_round_trip decodeConst [3, 1, 2] (fun _ _ => rfl)⟩

/-- C3. Extraction failure condition: `extract_screenshots` fails iff both
decode strategies yield zero usable frames (PyAV unavailable, raising, or
returning the empty list counts as zero); a non-empty PyAV result is
returned directly, and whenever the PyAV path yields nothing a non-empty
FFmpeg result is returned as success. -/
theorem extract_screenshots_fallback {Frame : Type} (avail : Bool)
    (pyav : Except String (List (Frame × ℚ))) (ffmpeg : List (Frame × ℚ)) :
    ((∃ e, extract_screenshots avail pyav ffmpeg = .error e) ↔
        ffmpeg = [] ∧ (avail = false ∨ pyav = .ok [] ∨ ∃ e, pyav = .error e)) ∧
    (∀ x xs, extract_screenshots true (.ok (x :: xs)) ffmpeg = .ok (x :: xs)) ∧
    (∀ y ys, ∀ e : String,
        extract_screenshots false pyav (y :: ys) = .ok (y :: ys) ∧
        extract_screenshots true (.ok ([] : List (Frame × ℚ))) (y :: ys) =
          .ok (y :: ys) ∧
        extract_screenshots true (.error e) (y :: ys) = .ok (y :: ys)) := by
  refine ⟨?_, ?_, ?_⟩
  · cases avail with
    | false =>
      cases ffmpeg with
      | nil => simp [extract_screenshots]
      | cons y ys => simp [extract_screenshots]
    | true =>
      cases pyav with
      | error e =>
        cases ffmpeg with
        | nil => simp [extract_screenshots]
        | cons y ys => simp [extract_screenshots]
      | ok r =>
        cases r with
        | nil =>
          cases ffmpeg with
          | nil => simp [extract_screenshots]
          | cons y ys => simp [extract_screenshots]
        | cons x xs => simp [extract_screenshots]
  · intro x xs
    simp [extract_screenshots]
  · intro y ys e
    cases pyav <;> simp [extract_screenshots]

/-- C4 counterexample: on the empty sample list `create_grid` raises
`ValueError("No images provided for grid creation")` instead of padding
to `rows * columns` cells. -/
theorem create_grid_empty_raises :
    create_grid ([] : List (Frame × ℚ)) cfgDefault none false =
      .error "No images provided for grid creation" := rfl

/-- C4 (amended). Padding totality on non-empty inputs: for every
non-empty sample list `create_grid` does not raise; it pads a short list
with black placeholder frames matching the first sample's dimensions up
to `rows * columns`, truncates a longer one, and the pasted grid always
has exactly `rows * columns` cells. -/
theorem create_grid_pads (first : Frame × ℚ) (rest : List (Frame × ℚ))
    (cfg : ProcessingConfig) (md : Option VideoMetadata) (mode : Bool)
    (hrows : 1 ≤ cfg.rows) (hcols : 1 ≤ cfg.columns) :
    PadSpec first rest cfg md mode := by
  have hT : (0 : ℤ) ≤ cfg.rows * cfg.columns := by positivity
  cases mode with
  | false =>
    refine ⟨_, rfl, ?_, ?_, ?_⟩
    · simp only [List.length_take, List.length_append, List.length_replicate]
      omega
    · intro hlt
      show (_ ++ List.replicate _ _).take _ = _
      rw [List.take_of_length_le]
      simp only [List.length_append, List.length_replicate]
      omega
    · intro hge
      show (_ ++ List.replicate _ _).take _ = _
      have hz : (cfg.rows * cfg.columns - (((first :: rest).length : ℕ) : ℤ)).toNat = 0 := by
        omega
      rw [hz]
      simp
  | true =>
    refine ⟨_, rfl, ?_, ?_, ?_⟩
    · simp only [List.length_take, List.length_append, List.length_replicate]
      omega
    · intro hlt
      show (_ ++ List.replicate _ _).take _ = _
      rw [List.take_of_length_le]
      simp only [List.length_append, List.length_replicate]
      omega
    · intro hge
      show (_ ++ List.replicate _ _).take _ = _
      have hz : (cfg.rows * cfg.columns - (((first :: rest).length : ℕ) : ℤ)).toNat = 0 := by
        omega
      rw [hz]
      simp

/-- Witness for C4 at a single 2×2 sample under the default 4×4 grid. -/
theorem create_grid_pads_witness :
    ((1 : ℤ) ≤ cfgDefault.rows ∧ (1 : ℤ) ≤ cfgDefault.columns) ∧
      PadSpec (⟨2, 2, false⟩, 1) [] cfgDefault none false :=
  ⟨⟨by decide, by decide⟩,
    create_grid_pads (⟨2, 2, false⟩, 1) [] cfgDefault none false
      (by decide) (by decide)⟩

/-- C10. `create_grid` mutates its caller's list in place: when fewer
samples than `rows * columns` are passed, the black padding frames with
timestamp `0.0` are appended to the caller's list object, which therefore
does not come back unchanged. -/
theorem create_grid_mutates_caller (first : Frame × ℚ)
    (rest : List (Frame × ℚ)) (cfg : ProcessingConfig)
    (md : Option VideoMetadata) (mode : Bool) :
    MutationSpec first rest cfg md mode := by
  intro r hr
  have hcaller : r.callerImages = (first :: rest) ++
      List.replicate
        (cfg.rows * cfg.columns - ((first :: rest).length : ℤ)).toNat
        (⟨first.1.width, first.1.height, true⟩, 0) := by
    cases mode with
    | false => injection hr with h; rw [← h]
    | true => injection hr with h; rw [← h]
  refine ⟨hcaller, ?_⟩
  intro hlt heq
  rw [hcaller] at heq
  have hlen := congrArg List.length heq
  simp only [List.length_append, List.length_replicate] at hlen
  omega

/-- Witness for C10: two samples under a 2×2 grid gain two padding
entries. -/
theorem create_grid_mutates_caller_witness :
    MutationSpec (⟨2, 2, false⟩, 1) [(⟨2, 2, false⟩, 2)]
      { rows := 2, columns := 2, max_screenshot_width := 4,
        max_screenshot_height := 4, jpg_quality := 75 } none true :=
  create_grid_mutates_caller (⟨2, 2, false⟩, 1) [(⟨2, 2, false⟩, 2)]
    { rows := 2, columns := 2, max_screenshot_width := 4,
      max_screenshot_height := 4, jpg_quality := 75 } none true

/-- C9. Canvas dimension invariant: every successful `create_grid` result
has final dimensions `(columns * cellWidth, rows * cellHeight +
headerHeight)` for the integral cell dimensions it recomputes, in both
composition modes, including after the single whole-canvas scale-down. -/
theorem canvas_integral_multiples (images : List (Frame × ℚ))
    (cfg : ProcessingConfig) (md : Option VideoMetadata) (mode : Bool) :
    CanvasSpec images cfg md mode := by
  intro r hr
  cases images with
  | nil => simp [create_grid] at hr
  | cons first rest =>
    cases mode with
    | false => injection hr with h; rw [← h]; exact ⟨rfl, rfl⟩
    | true => injection hr with h; rw [← h]; exact ⟨rfl, rfl⟩

/-- Witness for C9 at a 3×2 frame under the default configuration, in the
compose-then-resize mode. -/
theorem canvas_integral_multiples_witness :
    CanvasSpec [(⟨3, 2, false⟩, 1)] cfgDefault none true :=
  canvas_integral_multiples [(⟨3, 2, false⟩, 1)] cfgDefault none true

/-- C5. Scale-to-fit never upscales: in the compose-then-resize-once mode,
when the native grid `(columns*frameW, rows*frameH)` already fits within
`(columns*max_w, rows*max_h)` the scale factor is exactly `1` and no
resize happens; otherwise the single factor is
`min(width_ratio, height_ratio) < 1` and the whole canvas is resized
once. -/
theorem scale_to_fit_no_upscale (first : Frame × ℚ)
    (rest : List (Frame × ℚ)) (cfg : ProcessingConfig)
    (md : Option VideoMetadata)
    (hcols : 1 ≤ cfg.columns) (hrows : 1 ≤ cfg.rows)
    (hfw : 0 < first.1.width) (hfh : 0 < first.1.height) :
    ScaleSpec first rest cfg md := by
  intro r hr
  injection hr with h
  rw [← h]
  have hgw : (0 : ℤ) < cfg.columns * (first.1.width : ℤ) :=
    mul_pos (by omega) (by exact_mod_cast hfw)
  have hgh : (0 : ℤ) < cfg.rows * (first.1.height : ℤ) :=
    mul_pos (by omega) (by exact_mod_cast hfh)
  have hgwQ : (0 : ℚ) < ((cfg.columns * (first.1.width : ℤ) : ℤ) : ℚ) := by
    exact_mod_cast hgw
  have hghQ : (0 : ℚ) < ((cfg.rows * (first.1.height : ℤ) : ℤ) : ℚ) := by
    exact_mod_cast hgh
  constructor
  · rintro ⟨h1, h2⟩
    have hA : (1 : ℚ) ≤ ((cfg.columns * cfg.max_screenshot_width : ℤ) : ℚ) /
        ((cfg.columns * (first.1.width : ℤ) : ℤ) : ℚ) :=
      (one_le_div hgwQ).mpr (by exact_mod_cast h1)
    have hB : (1 : ℚ) ≤ ((cfg.rows * cfg.max_screenshot_height : ℤ) : ℚ) /
        ((cfg.rows * (first.1.height : ℤ) : ℤ) : ℚ) :=
      (one_le_div hghQ).mpr (by exact_mod_cast h2)
    have hfac : scaleFactor
        ((cfg.columns * (first.1.width : ℤ) : ℤ) : ℚ)
        ((cfg.rows * (first.1.height : ℤ) : ℤ) : ℚ)
        ((cfg.columns * cfg.max_screenshot_width : ℤ) : ℚ)
        ((cfg.rows * cfg.max_screenshot_height : ℤ) : ℚ) = 1 := by
      unfold scaleFactor
      rw [min_eq_right (le_min hA hB)]
    have hres : decide (scaleFactor
        ((cfg.columns * (first.1.width : ℤ) : ℤ) : ℚ)
        ((cfg.rows * (first.1.height : ℤ) : ℤ) : ℚ)
        ((cfg.columns * cfg.max_screenshot_width : ℤ) : ℚ)
        ((cfg.rows * cfg.max_screenshot_height : ℤ) : ℚ) < (1 : ℚ)) = false := by
      rw [hfac]
      simp
    exact ⟨hfac, hres⟩
  · intro hneg
    have hminlt : min
        (((cfg.columns * cfg.max_screenshot_width : ℤ) : ℚ) /
          ((cfg.columns * (first.1.width : ℤ) : ℤ) : ℚ))
        (((cfg.rows * cfg.max_screenshot_height : ℤ) : ℚ) /
          ((cfg.rows * (first.1.height : ℤ) : ℤ) : ℚ)) < 1 := by
      rcases not_and_or.mp hneg with h1 | h2
      · have hA : ((cfg.columns * cfg.max_screenshot_width : ℤ) : ℚ) /
            ((cfg.columns * (first.1.width : ℤ) : ℤ) : ℚ) < 1 :=
          (div_lt_one hgwQ).mpr (by exact_mod_cast (by omega : cfg.columns *
            cfg.max_screenshot_width < cfg.columns * (first.1.width : ℤ)))
        exact lt_of_le_of_lt (min_le_left _ _) hA
      · have hB : ((cfg.rows * cfg.max_screenshot_height : ℤ) : ℚ) /
            ((cfg.rows * (first.1.height : ℤ) : ℤ) : ℚ) < 1 :=
          (div_lt_one hghQ).mpr (by exact_mod_cast (by omega : cfg.rows *
            cfg.max_screenshot_height < cfg.rows * (first.1.height : ℤ)))
        exact lt_of_le_of_lt (min_le_right _ _) hB
    have hfac : scaleFactor
        ((cfg.columns * (first.1.width : ℤ) : ℤ) : ℚ)
        ((cfg.rows * (first.1.height : ℤ) : ℤ) : ℚ)
        ((cfg.columns * cfg.max_screenshot_width : ℤ) : ℚ)
        ((cfg.rows * cfg.max_screenshot_height : ℤ) : ℚ) = min
        (((cfg.columns * cfg.max_screenshot_width : ℤ) : ℚ) /
          ((cfg.columns * (first.1.width : ℤ) : ℤ) : ℚ))
        (((cfg.rows * cfg.max_screenshot_height : ℤ) : ℚ) /
          ((cfg.rows * (first.1.height : ℤ) : ℤ) : ℚ)) := by
      unfold scaleFactor
      rw [min_eq_left (le_of_lt hminlt)]
    refine ⟨hfac, hfac ▸ hminlt, decide_eq_true (hfac ▸ hminlt)⟩

/-- Witness for C5 at a 10×10 frame in a 1×1 grid with a 4×4 target box
(forcing a scale-down). -/
theorem scale_to_fit_no_upscale_witness :
    ((1 : ℤ) ≤ cfgShrink.columns ∧ (1 : ℤ) ≤ cfgShrink.rows ∧
      0 < ((⟨10, 10, false⟩, 1) : Frame × ℚ).1.width ∧
      0 < ((⟨10, 10, false⟩, 1) : Frame × ℚ).1.height) ∧
    ScaleSpec (⟨10, 10, false⟩, 1) [] cfgShrink none :=
  ⟨⟨by decide, by decide, by decide, by decide⟩,
    scale_to_fit_no_upscale (⟨10, 10, false⟩, 1) [] cfgShrink none
      (by decide) (by decide) (by decide) (by decide)⟩

/-- Membership in a conditionally-empty list. -/
theorem mem_ite_nil {α : Type} (a : α) (c : Prop) [Decidable c]
    (l : List α) : a ∈ (if c then l else []) ↔ c ∧ a ∈ l := by
  split
  · rename_i h
    simp [h]
  · rename_i h
    simp [h]

/-- C7 counterexample, refuting the claim at two concrete inputs.  With
only `show_file_size` enabled and a zero `file_size` field, no label line
renders, yet the header height is `0 * 28 + 2 * 10 = 20`, not zero — a
20-pixel empty header band is composed.  And with only `show_title`
enabled and every metadata field absent, the title line is rendered as
`Title: Unknown` rather than silently omitted. -/
theorem header_nonzero_when_no_labels :
    labelLines cfgFileSizeOnly mdZeroSize = [] ∧
      headerHeight (some mdZeroSize) cfgFileSizeOnly = 20 ∧
      headerHeight (some mdZeroSize) cfgFileSizeOnly ≠ 0 ∧
      mdZeroSize.filename = none ∧
      labelLines cfgTitleOnly mdZeroSize = [LabelLine.title "Unknown"] := by
  refine ⟨rfl, rfl, ?_, rfl, rfl⟩
  decide

/-- C7 (amended). Header label handling: the file-size, duration and
resolution lines are silently omitted, without error, when their metadata
field is absent (or non-positive for file size and duration); enabled
title and codec lines always render, substituting `Unknown` for an absent
field; and the header height is
`rendered_lines * line_height + 2 * padding` whenever metadata is present
and some toggle is enabled — `2 * padding` when zero lines render — and
zero when no toggle is enabled or metadata is absent. -/
theorem header_label_omission (cfg : ProcessingConfig) (md : VideoMetadata) :
    HeaderSpec cfg md := by
  refine ⟨?_, ?_, ?_, ?_, ?_, ?_, ?_, rfl⟩
  · intro hfs n hmem
    rcases hres : md.resolution with _ | ⟨rw0, rh0⟩ <;>
    rcases hw : md.width with _ | w1 <;>
    rcases hh : md.height with _ | h1 <;>
      simp [labelLines, mem_ite_nil, hres, hw, hh, hfs] at hmem
  · intro hdur q hmem
    have hcond : ¬ (0 < md.duration.getD 0) := not_lt.mpr hdur
    rcases hres : md.resolution with _ | ⟨rw0, rh0⟩ <;>
    rcases hw : md.width with _ | w1 <;>
    rcases hh : md.height with _ | h1 <;>
      simp [labelLines, mem_ite_nil, hres, hw, hh, hcond] at hmem
  · intro hres hw w0 h0 hmem
    rcases hh : md.height with _ | h1 <;>
      simp [labelLines, mem_ite_nil, hres, hw, hh] at hmem
  · intro ht
    simp [labelLines, ht]
  · intro hc
    simp [labelLines, hc]
  · intro hany
    simp [headerHeight, hany]
  · intro hany
    simp [headerHeight, hany]

/-- Witness for C7: the zero-size metadata omits the file-size line. -/
theorem header_label_omission_witness :
    mdZeroSize.file_size.getD 0 = 0 ∧
      ∀ n, LabelLine.fileSize n ∉ labelLines cfgFileSizeOnly mdZeroSize :=
  ⟨rfl, (header_label_omission cfgFileSizeOnly mdZeroSize).1 rfl⟩

/-- C6 counterexample: for `<input>/sub/a.mp4` with `follow_structure`,
default JPG format and empty suffix, the computed path is
`<output>/sub/a.mp4.jpg` — `os.path.basename` keeps the original video
extension — not the claimed `<output>/sub/a.jpg`. -/
theorem output_path_keeps_extension :
    calculate_output_path ["input", "sub", "a.mp4"] ["input"] ["output"]
        "JPG" true "" = ["output", "sub", "a.mp4.jpg"] ∧
      calculate_output_path ["input", "sub", "a.mp4"] ["input"] ["output"]
        "JPG" true "" ≠ ["output", "sub", "a.jpg"] := by
  refine ⟨rfl, ?_⟩
  decide

/-- C6 (amended). Output path computation: the output filename is the
video's full basename (original extension kept) plus suffix plus the
format extension (`.png` for PNG, else `.jpg`); with `follow_structure`
the relative subdirectory is preserved (`'.'` meaning the output root),
without it — or when the relative path cannot be computed — the file goes
directly in the output root. -/
theorem calculate_output_path_general (input output sub : List String)
    (name fmt suffix : String) :
    OutputPathSpec input output sub name fmt suffix := by
  refine ⟨?_, ?_, ?_⟩
  · show calculate_output_path ((input ++ sub) ++ [name]) input output fmt
      true suffix = _
    simp only [calculate_output_path, relpath, List.dropLast_concat,
      List.getLastD_concat, List.take_left, List.drop_left, if_pos rfl,
      if_true]
    cases sub with
    | nil => simp
    | cons s ss => simp
  · show calculate_output_path ((input ++ sub) ++ [name]) input output fmt
      false suffix = _
    simp [calculate_output_path, List.getLastD_concat]
  · intro video hnone
    simp [calculate_output_path, hnone]

/-- Witness for C6: a video whose directory is not under the input root
falls back to the output root. -/
theorem calculate_output_path_general_witness :
    relpath (["other", "d.mp4"] : List String).dropLast ["input"] = none ∧
      calculate_output_path ["other", "d.mp4"] ["input"] ["output"] "JPG"
        true "" = ["output", "d.mp4.jpg"] :=
  ⟨by decide,
    (calculate_output_path_general ["input"] ["output"] [] "x" "JPG" "").2.2
      ["other", "d.mp4"] (by decide)⟩
